import Mathlib

/-!
Verification of the news-aggregator front end (`src/static/app.js`).

The development shallowly embeds the feed-store / translation-batcher /
loader / projector pipeline of `app.js`.  Pure computations are Lean
functions; the module-level mutable variables (`originalNewsData`,
`newsData`, `currentFilter`, `currentLang`, and the `newsGrid` rendering
surface) become an explicit `AppState` record threaded through the
operations.  Each network call site is modelled by an oracle argument
describing the response the backend would give to that request, so that
one run of an operation is a Lean function of the state and the oracle.
-/

/-- A feed item as produced by the backend (`FeedItem` of the data model;
field names follow `app.js`: `source`, `source_name`, `title`,
`description`, `author`, `url`, `published_at`, `fetched_at`). -/
structure NewsItem where
  source : String
  sourceName : String
  title : String
  description : Option String
  author : Option String
  url : String
  publishedAt : Option String
  fetchedAt : Option String
deriving DecidableEq

/-- The rendering surface (`newsGrid.innerHTML`), abstracted to the kind of
content the code writes into it: the loading message, the translating
message with an optional percentage, the error message, the no-news
message, or the rendered list of cards (lines 137, 153, 159, 178, 207,
211 of `app.js`). -/
inductive GridView where
  | loadingMsg
  | translatingMsg (percent : Option Nat)
  | errorMsg
  | noNewsMsg
  | cards (items : List NewsItem)
deriving DecidableEq

/-- The module-level mutable state of `app.js` (lines 7-12): the active
source filter, the immutable original snapshot, the displayed snapshot,
the active language, and the rendering surface. -/
structure AppState where
  currentFilter : String
  originalNewsData : List NewsItem
  newsData : List NewsItem
  currentLang : String
  grid : GridView
deriving DecidableEq

/-- Outcome of one `fetch('/api/translate', ...)` followed by
`response.json()` (lines 168-173).  `exn` covers a rejected fetch or a
body that is not JSON (the exception propagates to the `catch` at line
183); `ok items` is a parsed JSON body whose `items` field is the given
array when present and truthy, and `none` when absent or falsy (the
`data.items || batch` fallback at line 174). -/
inductive TranslateResp where
  | exn
  | ok (items : Option (List NewsItem))
deriving DecidableEq

/-- Outcome of `fetch(url)` followed by `response.json()` in `loadNews`
(lines 139-140).  `rejected` is a rejected fetch; `completed status body`
is an HTTP response with the given status code whose body either fails to
parse as JSON (`Except.error ()`) or parses to a payload whose `items`
field is as in `TranslateResp.ok`.  The code never reads the status. -/
inductive FetchOutcome where
  | rejected
  | completed (status : Nat) (body : Except Unit (Option (List NewsItem)))

/-- `batchSize` of `translateNews` (line 163). -/
def batchSize : Nat := 10

/-- `Math.round (a / b)` for nonnegative rationals, written over `Nat`:
round half away from zero, which for a nonnegative argument is
`Nat.floor (a / b + 1 / 2)`. -/
def jsRound (a b : Nat) : Nat := (2 * a + b) / (2 * b)

/-- Number of batches of size `batchSize` covering `len` items. -/
def numBatches (len : Nat) : Nat := (len + (batchSize - 1)) / batchSize

/-- The filtering step of `renderNews` (lines 202-204):
`currentFilter === 'all' ? newsData : newsData.filter(item => item.source
=== currentFilter)`. -/
def filteredNews (newsData : List NewsItem) (filter : String) : List NewsItem :=
  if filter = "all" then newsData
  else newsData.filter (fun item => item.source == filter)

/-- `renderNews` (lines 200-219): project the displayed snapshot through
the active filter and write either the no-news message or the cards into
the grid. -/
def renderGrid (newsData : List NewsItem) (filter : String) : GridView :=
  let filtered := filteredNews newsData filter
  if filtered.isEmpty then .noNewsMsg else .cards filtered

/-- A filter-button click (lines 100-105): set `currentFilter` and
re-render. -/
def applyFilter (s : AppState) (f : String) : AppState :=
  { s with currentFilter := f, grid := renderGrid s.newsData f }

/-- The `for` loop of `translateNews` (lines 166-179), batch by batch.
`original` is the value of `originalNewsData` (unchanged during an
uninterleaved run), `backend i` is the response to the request that sends
the batch starting at index `i`, `i` is the loop variable, `acc` is
`translatedItems`, `em` is the list of progress percentages written to
the grid so far, and `d` counts dispatched batch requests.  A thrown
request transfers control to the `catch` at line 183, which sets
`newsData = [...originalNewsData]`, so the loop answers the original
snapshot in that case.  `fuel` bounds the number of iterations; the
callers pass `original.length`, which (as the loop advances `i` by
`batchSize ≥ 1`) is never exhausted before the loop exit test fails. -/
def translateLoop (original : List NewsItem) (backend : Nat → TranslateResp) :
    Nat → Nat → List NewsItem → List Nat → Nat → List NewsItem × List Nat × Nat
  | 0, _, acc, em, d => (acc, em, d)
  | fuel + 1, i, acc, em, d =>
    if i < original.length then
      let batch := (original.drop i).take batchSize
      match backend i with
      | .exn => (original, em, d + 1)
      | .ok items =>
        translateLoop original backend fuel (i + batchSize) (acc ++ items.getD batch)
          (em ++ [min 100 (jsRound ((i + batchSize) * 100) original.length)]) (d + 1)
    else (acc, em, d)

/-- `translateNews` (lines 157-188) as one uninterleaved run: returns the
new state together with the emitted progress percentages and the number
of batch requests dispatched.  On normal completion `newsData` receives
`translatedItems` and `renderNews` runs; when a request throws, the
`catch` resets `newsData` to a copy of `originalNewsData` and also runs
`renderNews`, so the overall operation never surfaces an error. -/
def translateNews (s : AppState) (backend : Nat → TranslateResp) :
    AppState × List Nat × Nat :=
  let r := translateLoop s.originalNewsData backend s.originalNewsData.length 0 [] [] 0
  ({ s with newsData := r.1, grid := renderGrid r.1 s.currentFilter }, r.2.1, r.2.2)

/-- `loadNews` (lines 134-155): fetch the feed (the fourth component of
the result lists the URLs requested — exactly one per run), and on a
parsed body replace `originalNewsData` with `data.items || []` and
`newsData` with a copy, then either translate (language `ru`) or render;
on a rejected fetch or an unparseable body, the `catch` leaves the data
untouched and writes the error message. -/
def loadNews (s : AppState) (forceRefresh : Bool) (outcome : FetchOutcome)
    (tbackend : Nat → TranslateResp) :
    AppState × List Nat × Nat × List String :=
  let url := if forceRefresh then "/api/news?force_refresh=true" else "/api/news"
  match outcome with
  | .rejected => ({ s with grid := .errorMsg }, [], 0, [url])
  | .completed _ (.error _) => ({ s with grid := .errorMsg }, [], 0, [url])
  | .completed _ (.ok payload) =>
    let orig := payload.getD []
    let s1 := { s with originalNewsData := orig, newsData := orig }
    if s1.currentLang = "ru" then
      let r := translateNews s1 tbackend
      (r.1, r.2.1, r.2.2, [url])
    else
      ({ s1 with grid := renderGrid orig s1.currentFilter }, [], 0, [url])

/-- The language-button click handler (lines 84-96): toggle the language;
when switching into `ru` with a non-empty original snapshot, run
`translateNews`; when switching into `en`, reset `newsData` to a copy of
`originalNewsData` and re-render without any backend call. -/
def toggleLang (s : AppState) (backend : Nat → TranslateResp) :
    AppState × List Nat × Nat :=
  let newLang := if s.currentLang = "en" then "ru" else "en"
  let s1 := { s with currentLang := newLang }
  if newLang = "ru" ∧ 0 < s1.originalNewsData.length then
    translateNews s1 backend
  else if newLang = "en" then
    ({ s1 with newsData := s1.originalNewsData,
               grid := renderGrid s1.originalNewsData s1.currentFilter }, [], 0)
  else (s1, [], 0)

/-- `translateNews` from its entry (line 157) up to its first suspension
point: the translating message is written, the first batch
`originalNewsData.slice(0, batchSize)` is computed and its request
dispatched (lines 159-172).  Returns the state as left at the suspension
point together with the captured `batch` value.  Used to examine what
happens when other event-loop turns run while this request is in
flight. -/
def translateFirstDispatch (s : AppState) : AppState × List NewsItem :=
  ({ s with grid := .translatingMsg none }, (s.originalNewsData.drop 0).take batchSize)

/-- Resumption of that suspended `translateNews` once the response for its
first batch arrives (lines 173-188), reading the CURRENT module-level
state `s` (which other turns of the event loop may have rewritten in the
meantime): on a thrown request the `catch` resets `newsData` to the
current `originalNewsData`; otherwise the loop continues from
`i = batchSize` against the current `originalNewsData`. -/
def translateResumeFirst (s : AppState) (batch : List NewsItem)
    (resp : TranslateResp) (backend : Nat → TranslateResp) :
    AppState × List Nat × Nat :=
  match resp with
  | .exn =>
    ({ s with newsData := s.originalNewsData,
              grid := renderGrid s.originalNewsData s.currentFilter }, [], 1)
  | .ok items =>
    let acc := items.getD batch
    let p := min 100 (jsRound ((0 + batchSize) * 100) s.originalNewsData.length)
    let r := translateLoop s.originalNewsData backend s.originalNewsData.length
      batchSize acc [p] 1
    ({ s with newsData := r.1, grid := renderGrid r.1 s.currentFilter }, r.2.1, r.2.2)

/-- A sample feed item used in concrete witnesses. -/
def exItem : NewsItem :=
  { source := "reddit", sourceName := "Reddit", title := "Original title"
    description := some "desc", author := none, url := "https://example.org/a"
    publishedAt := none, fetchedAt := some "2024-01-01" }

/-- A translated variant of `exItem`: text fields differ, `url` is kept. -/
def exItemRu : NewsItem :=
  { exItem with title := "Заголовок", description := some "описание" }

/-- A second sample item with a distinct `url`. -/
def exItem2 : NewsItem :=
  { exItem with title := "Second", url := "https://example.org/b" }

/-- A sample state: one-item feed, English, filter `all`. -/
def exState : AppState :=
  { currentFilter := "all", originalNewsData := [exItem], newsData := [exItem]
    currentLang := "en", grid := .cards [exItem] }

/-- The array a batch contributes to `translatedItems` (line 174):
`data.items || batch` — the response's `items` when present and truthy,
else the original batch.  Factored out of `runFrom` so that the `.exn`
case (unused under the no-throw hypothesis) has a definite value. -/
def respItems (batch : List NewsItem) : TranslateResp → List NewsItem
  | .ok (some ys) => ys
  | _ => batch

/-- The translation loop of `translateNews` with the three accumulators
factored out: `runFrom original backend fuel i` is the contribution of
the iterations from position `i` on — appended items, emitted progress
values, dispatched request count.  It equals `translateLoop` relative to
any accumulator values whenever no request throws
(`translateLoop_eq_runFrom` below); a thrown request is given the
fallback value here, which that hypothesis makes irrelevant. -/
def runFrom (original : List NewsItem) (backend : Nat → TranslateResp) :
    Nat → Nat → List NewsItem × List Nat × Nat
  | 0, _ => ([], [], 0)
  | fuel + 1, i =>
    if i < original.length then
      let r := runFrom original backend fuel (i + batchSize)
      (respItems ((original.drop i).take batchSize) (backend i) ++ r.1,
       min 100 (jsRound ((i + batchSize) * 100) original.length) :: r.2.1,
       r.2.2 + 1)
    else ([], [], 0)

/-- An eleven-item snapshot (two batches: ten items and one item). -/
def elevenItems : List NewsItem := List.replicate 11 exItem

/-- A state holding the eleven-item snapshot. -/
def elevenState : AppState :=
  { exState with originalNewsData := elevenItems, newsData := elevenItems }

/-- A state holding a five-item snapshot (a single batch). -/
def fiveState : AppState :=
  { exState with originalNewsData := List.replicate 5 exItem,
                 newsData := List.replicate 5 exItem }

/-- A backend for concrete partial-failure runs over `elevenItems`: the
request for the batch starting at index 0 yields a parsed body without
items (a handled batch failure); any other request succeeds with a
translation of the right length. -/
def cex2Backend : Nat → TranslateResp := fun i =>
  if i = 0 then .ok none
  else .ok (some (((elevenItems.drop i).take batchSize).map (fun _ => exItemRu)))

/-- The stale-translation interleaving runs on the single event loop of
the page: a translation of the one-item snapshot is started by switching
the language to `ru`; its first (and only) batch request is dispatched
and the handler suspends. -/
def staleStart : AppState × List NewsItem :=
  translateFirstDispatch { exState with currentLang := "ru" }

/-- The superseding step of that interleaving: the language toggle back
to `en` (lines 92-95) runs to completion while the translation request is
still in flight, resetting `newsData` to the originals. -/
def staleMid : AppState :=
  { staleStart.1 with
      currentLang := "en",
      newsData := staleStart.1.originalNewsData,
      grid := renderGrid staleStart.1.originalNewsData staleStart.1.currentFilter }

/-- Final state of the interleaving: the stale response arrives and the
suspended `translateNews` resumes against the current globals — the code
has no generation token with which to discard it. -/
def staleFinal : AppState :=
  (translateResumeFirst staleMid staleStart.2 (.ok (some [exItemRu]))
    (fun _ => .ok none)).1

example : translateNews { exState with currentLang := "ru" }
    (fun _ => .ok (some [exItemRu])) =
    ({ exState with currentLang := "ru", newsData := [exItemRu],
                    grid := .cards [exItemRu] }, [100], 1) := by
  decide

example : translateNews { exState with currentLang := "ru" } (fun _ => .exn) =
    ({ exState with currentLang := "ru", newsData := [exItem],
                    grid := .cards [exItem] }, [], 1) := by
  decide

example : filteredNews [exItem, exItem2] "all" = [exItem, exItem2] := by decide

/-! ### Helper lemmas -/

/-- `renderNews` writes either the no-news message or cards, never the
error message. -/
lemma renderGrid_ne_errorMsg (l : List NewsItem) (f : String) :
    renderGrid l f ≠ .errorMsg := by
  unfold renderGrid
  by_cases h : (filteredNews l f).isEmpty <;> simp [h]

/-- `translateNews` leaves `originalNewsData` unchanged. -/
@[simp] lemma translateNews_originalNewsData (s : AppState) (b : Nat → TranslateResp) :
    (translateNews s b).1.originalNewsData = s.originalNewsData := rfl

/-- `translateNews` leaves `currentLang` unchanged. -/
@[simp] lemma translateNews_currentLang (s : AppState) (b : Nat → TranslateResp) :
    (translateNews s b).1.currentLang = s.currentLang := rfl

/-- `translateNews` leaves `currentFilter` unchanged. -/
@[simp] lemma translateNews_currentFilter (s : AppState) (b : Nat → TranslateResp) :
    (translateNews s b).1.currentFilter = s.currentFilter := rfl

/-- `translateNews` ends in a rendered grid. -/
lemma translateNews_grid (s : AppState) (b : Nat → TranslateResp) :
    (translateNews s b).1.grid =
      renderGrid (translateNews s b).1.newsData s.currentFilter := rfl

/-- The language toggle out of a non-`en` language: the `en` branch of the
handler runs, copying the originals into `newsData` with no backend
call. -/
lemma toggleLang_to_en (s : AppState) (b : Nat → TranslateResp)
    (h : s.currentLang ≠ "en") :
    toggleLang s b =
      ({ s with currentLang := "en",
                newsData := s.originalNewsData,
                grid := renderGrid s.originalNewsData s.currentFilter }, [], 0) := by
  unfold toggleLang
  simp +decide [h]

/-- The language toggle out of `en` switches into `ru` and leaves the
original snapshot unchanged. -/
lemma toggleLang_from_en (s : AppState) (b : Nat → TranslateResp)
    (h : s.currentLang = "en") :
    (toggleLang s b).1.currentLang = "ru" ∧
    (toggleLang s b).1.originalNewsData = s.originalNewsData := by
  unfold toggleLang
  by_cases h0 : 0 < s.originalNewsData.length <;> simp +decide [h, h0]

/-! ### Claim theorems (part 1) -/

/-- Claim C3 (status: the code lacks the required check).  The spec
requires a backend response whose `items` has a different length than the
batch sent to be detected and treated as a batch failure, falling back to
the original items of that batch.  The code (line 174,
`translatedItems.push(...(data.items || batch))`) splices any truthy
`items` array in verbatim: on a one-item snapshot whose single batch
receives a two-item response, the resulting display has two items, so the
`display.length === original.length` alignment is corrupted rather than
repaired. -/
theorem translate_no_length_check :
    (translateNews { exState with currentLang := "ru" }
        (fun _ => .ok (some [exItemRu, exItem2]))).1.newsData
      = [exItemRu, exItem2] ∧
    ({ exState with currentLang := "ru" } : AppState).originalNewsData.length = 1 ∧
    (translateNews { exState with currentLang := "ru" }
        (fun _ => .ok (some [exItemRu, exItem2]))).1.newsData.length
      ≠ ({ exState with currentLang := "ru" } : AppState).originalNewsData.length := by
  refine ⟨by decide, by decide, by decide⟩

/-- Claim C5: when `loadNews` fails — a rejected fetch or a body that does
not parse as JSON — the prior `originalNewsData` and `newsData` are left
untouched, the grid shows the error state, and exactly one request was
made (no automatic retry). -/
theorem load_failure_preserves (s : AppState) (force : Bool)
    (tb : Nat → TranslateResp) (outcome : FetchOutcome)
    (h : outcome = .rejected ∨ ∃ st : Nat, outcome = .completed st (.error ())) :
    (loadNews s force outcome tb).1.originalNewsData = s.originalNewsData ∧
    (loadNews s force outcome tb).1.newsData = s.newsData ∧
    (loadNews s force outcome tb).1.grid = .errorMsg ∧
    (loadNews s force outcome tb).2.2.2.length = 1 := by
  rcases h with h | ⟨st, h⟩ <;> subst h <;> exact ⟨rfl, rfl, rfl, rfl⟩

/-- Witness for `load_failure_preserves` at a concrete failing load. -/
theorem load_failure_preserves_witness :
    (loadNews exState true .rejected (fun _ => .ok none)).1.newsData
        = exState.newsData ∧
    (loadNews exState true .rejected (fun _ => .ok none)).1.grid = .errorMsg :=
  ⟨(load_failure_preserves exState true (fun _ => .ok none) .rejected
      (Or.inl rfl)).2.1,
   (load_failure_preserves exState true (fun _ => .ok none) .rejected
      (Or.inl rfl)).2.2.1⟩

/-- Claim C6: starting from the primary locale, toggling the language
(switching into the translated locale, possibly rewriting `newsData`
through a translation run against an arbitrary backend) and toggling back
restores `newsData` to be equal to the untouched `originalNewsData`, and
the switch back dispatches no backend request. -/
theorem locale_roundtrip (s : AppState) (b b' : Nat → TranslateResp)
    (h : s.currentLang = "en") :
    (toggleLang (toggleLang s b).1 b').1.newsData
      = (toggleLang (toggleLang s b).1 b').1.originalNewsData ∧
    (toggleLang (toggleLang s b).1 b').1.originalNewsData = s.originalNewsData ∧
    (toggleLang (toggleLang s b).1 b').2.2 = 0 := by
  obtain ⟨hL, hO⟩ := toggleLang_from_en s b h
  rw [toggleLang_to_en _ b' (by rw [hL]; decide)]
  exact ⟨rfl, hO, rfl⟩

/-- Witness for `locale_roundtrip`: a concrete round trip through a
backend that translates the single batch. -/
theorem locale_roundtrip_witness :
    exState.currentLang = "en" ∧
    (toggleLang (toggleLang exState (fun _ => .ok (some [exItemRu]))).1
        (fun _ => .ok none)).1.newsData
      = (toggleLang (toggleLang exState (fun _ => .ok (some [exItemRu]))).1
        (fun _ => .ok none)).1.originalNewsData :=
  ⟨rfl, (locale_roundtrip exState (fun _ => .ok (some [exItemRu]))
      (fun _ => .ok none) rfl).1⟩

/-- Claim C7: `originalNewsData` is only ever replaced wholesale by a
successful load; translation, filtering/rendering, and locale toggles all
leave it unchanged, and a failed load leaves it unchanged as well. -/
theorem original_only_wholesale (s : AppState) (b tb : Nat → TranslateResp)
    (f : String) (force : Bool) (outcome : FetchOutcome) :
    (translateNews s b).1.originalNewsData = s.originalNewsData ∧
    (applyFilter s f).originalNewsData = s.originalNewsData ∧
    (toggleLang s b).1.originalNewsData = s.originalNewsData ∧
    ((outcome = .rejected ∨ ∃ st : Nat, outcome = .completed st (.error ())) →
      (loadNews s force outcome tb).1.originalNewsData = s.originalNewsData) ∧
    (∀ (st : Nat) (payload : Option (List NewsItem)),
      outcome = .completed st (.ok payload) →
      (loadNews s force outcome tb).1.originalNewsData = payload.getD []) := by
  refine ⟨rfl, rfl, ?_, ?_, ?_⟩
  · by_cases h : s.currentLang = "en"
    · exact (toggleLang_from_en s b h).2
    · rw [toggleLang_to_en s b h]
  · intro h
    rcases h with h | ⟨st, h⟩ <;> subst h <;> rfl
  · intro st payload h
    subst h
    by_cases hl : s.currentLang = "ru" <;> simp [loadNews, hl]

/-- Witness for `original_only_wholesale`: concrete runs of a translation
and of a successful load. -/
theorem original_only_wholesale_witness :
    (translateNews exState (fun _ => .ok (some [exItemRu]))).1.originalNewsData
      = exState.originalNewsData ∧
    (loadNews exState false (.completed 500 (.ok (some [exItem2])))
        (fun _ => .ok none)).1.originalNewsData = [exItem2] :=
  ⟨(original_only_wholesale exState (fun _ => .ok (some [exItemRu]))
      (fun _ => .ok none) "all" false .rejected).1,
   (original_only_wholesale exState (fun _ => .ok (some [exItemRu]))
      (fun _ => .ok none) "all" false
      (.completed 500 (.ok (some [exItem2])))).2.2.2.2 500 (some [exItem2]) rfl⟩

/-- Claim C8: the projection of the displayed snapshot through the source
filter passes everything unchanged for `all`, and for any other filter
value keeps exactly the items whose `source` equals the filter, as a
subsequence of the input (relative order preserved). -/
theorem project_filter_exact (S : List NewsItem) (f : String) :
    filteredNews S "all" = S ∧
    (filteredNews S "all").length = S.length ∧
    (f ≠ "all" →
      (filteredNews S f).Sublist S ∧
      ∀ x : NewsItem, x ∈ filteredNews S f ↔ x ∈ S ∧ x.source = f) := by
  refine ⟨by simp [filteredNews], by simp [filteredNews], fun hf => ⟨?_, ?_⟩⟩
  · unfold filteredNews
    rw [if_neg hf]
    exact List.filter_sublist S
  · intro x
    simp [filteredNews, hf, List.mem_filter]

/-- Witness for `project_filter_exact` at a concrete snapshot and a
non-`all` filter. -/
theorem project_filter_exact_witness :
    ("reddit" : String) ≠ "all" ∧
    ∀ x : NewsItem, x ∈ filteredNews [exItem, exItem2] "reddit" ↔
      x ∈ [exItem, exItem2] ∧ x.source = "reddit" :=
  ⟨by decide, fun x =>
    ((project_filter_exact [exItem, exItem2] "reddit").2.2 (by decide)).2 x⟩

/-- Claim C9 evaluation: after the toggle back to `en` the display had
been reset to the originals, yet the stale translation still overwrites
the display afterwards, leaving a Russian display under the `en` locale. -/
theorem stale_translation_applied :
    staleMid.newsData = [exItem] ∧
    staleFinal.currentLang = "en" ∧
    staleFinal.originalNewsData = [exItem] ∧
    staleFinal.newsData = [exItemRu] ∧
    staleFinal.newsData ≠ staleFinal.originalNewsData := by
  refine ⟨by decide, by decide, by decide, by decide, by decide⟩

/-- Claim C10: `loadNews` classifies outcomes solely by whether the body
parses as JSON — any parsed body, whatever the HTTP status, takes the
success path (original replaced by `items` or by the empty snapshot, no
error state), while a rejected fetch or an unparseable body leaves the
prior data untouched and shows the error state. -/
theorem load_success_is_parse (s : AppState) (force : Bool)
    (tb : Nat → TranslateResp) (st : Nat) (payload : Option (List NewsItem)) :
    ((loadNews s force (.completed st (.ok payload)) tb).1.originalNewsData
        = payload.getD []) ∧
    ((loadNews s force (.completed st (.ok payload)) tb).1.grid ≠ .errorMsg) ∧
    (s.currentLang ≠ "ru" →
      (loadNews s force (.completed st (.ok payload)) tb).1.newsData
        = payload.getD []) ∧
    ((loadNews s force .rejected tb).1.originalNewsData = s.originalNewsData ∧
     (loadNews s force .rejected tb).1.newsData = s.newsData ∧
     (loadNews s force .rejected tb).1.grid = .errorMsg) ∧
    ((loadNews s force (.completed st (.error ())) tb).1.originalNewsData
        = s.originalNewsData ∧
     (loadNews s force (.completed st (.error ())) tb).1.newsData = s.newsData ∧
     (loadNews s force (.completed st (.error ())) tb).1.grid = .errorMsg) := by
  refine ⟨?_, ?_, ?_, ⟨rfl, rfl, rfl⟩, ⟨rfl, rfl, rfl⟩⟩
  · by_cases hl : s.currentLang = "ru" <;> simp [loadNews, hl]
  · by_cases hl : s.currentLang = "ru" <;>
      simp [loadNews, hl, translateNews_grid, renderGrid_ne_errorMsg]
  · intro h
    simp [loadNews, h]

/-- Witness for `load_success_is_parse`: a load completing with HTTP
status 500 but a parseable body is treated as success. -/
theorem load_success_is_parse_witness :
    (loadNews exState false (.completed 500 (.ok (some [exItem2])))
        (fun _ => .ok none)).1.originalNewsData = [exItem2] ∧
    (loadNews exState false (.completed 500 (.ok (some [exItem2])))
        (fun _ => .ok none)).1.newsData = [exItem2] :=
  ⟨(load_success_is_parse exState false (fun _ => .ok none) 500
      (some [exItem2])).1,
   (load_success_is_parse exState false (fun _ => .ok none) 500
      (some [exItem2])).2.2.1 (by decide)⟩

/-! ### Structural lemmas about the translation loop -/

/-- One step of the loop on a batch whose request yields a parsed
response. -/
lemma translateLoop_succ_ok (original : List NewsItem) (backend : Nat → TranslateResp)
    (fuel i : Nat) (acc : List NewsItem) (em : List Nat) (d : Nat)
    (items : Option (List NewsItem))
    (hi : i < original.length) (hb : backend i = .ok items) :
    translateLoop original backend (fuel + 1) i acc em d
      = translateLoop original backend fuel (i + batchSize)
          (acc ++ items.getD ((original.drop i).take batchSize))
          (em ++ [min 100 (jsRound ((i + batchSize) * 100) original.length)])
          (d + 1) := by
  simp [translateLoop, hi, hb]

/-- One step of the loop on a batch whose request throws: the `catch`
resets the result to the original snapshot. -/
lemma translateLoop_succ_exn (original : List NewsItem) (backend : Nat → TranslateResp)
    (fuel i : Nat) (acc : List NewsItem) (em : List Nat) (d : Nat)
    (hi : i < original.length) (hb : backend i = .exn) :
    translateLoop original backend (fuel + 1) i acc em d = (original, em, d + 1) := by
  simp [translateLoop, hi, hb]

/-- The loop exit: at or past the end of the snapshot nothing changes. -/
lemma translateLoop_stop (original : List NewsItem) (backend : Nat → TranslateResp)
    (fuel i : Nat) (acc : List NewsItem) (em : List Nat) (d : Nat)
    (h : ¬ i < original.length) :
    translateLoop original backend fuel i acc em d = (acc, em, d) := by
  cases fuel <;> simp [translateLoop, h]

/-- One step of `runFrom` inside the snapshot. -/
lemma runFrom_succ_of_lt (original : List NewsItem) (backend : Nat → TranslateResp)
    (fuel i : Nat) (hi : i < original.length) :
    runFrom original backend (fuel + 1) i
      = (respItems ((original.drop i).take batchSize) (backend i)
           ++ (runFrom original backend fuel (i + batchSize)).1,
         min 100 (jsRound ((i + batchSize) * 100) original.length)
           :: (runFrom original backend fuel (i + batchSize)).2.1,
         (runFrom original backend fuel (i + batchSize)).2.2 + 1) := by
  simp [runFrom, hi]

/-- `runFrom` at or past the end of the snapshot contributes nothing. -/
lemma runFrom_stop (original : List NewsItem) (backend : Nat → TranslateResp)
    (fuel i : Nat) (h : original.length ≤ i) :
    runFrom original backend fuel i = ([], [], 0) := by
  cases fuel with
  | zero => simp [runFrom]
  | succ fuel => simp [runFrom, Nat.not_lt.mpr h]

/-- `l.drop i` splits as its next `k` elements followed by
`l.drop (i + k)`. -/
lemma drop_split (l : List NewsItem) (i k : Nat) :
    l.drop i = (l.drop i).take k ++ l.drop (i + k) := by
  have h := List.take_append_drop k (l.drop i)
  rw [List.drop_drop] at h
  exact h.symm

/-- If every successful batch response is url-aligned with the batch that
was sent, then from any loop position the result's url sequence is the
accumulator's followed by the unprocessed suffix of the snapshot — or,
when some request throws, the url sequence of the intact original
snapshot. -/
lemma translateLoop_urls (original : List NewsItem) (backend : Nat → TranslateResp)
    (hurl : ∀ i ys, backend i = .ok (some ys) →
      ys.map (fun it => it.url)
        = ((original.drop i).take batchSize).map (fun it => it.url)) :
    ∀ fuel i acc em d, original.length ≤ i + batchSize * fuel →
      (translateLoop original backend fuel i acc em d).1.map (fun it => it.url)
          = acc.map (fun it => it.url) ++ (original.drop i).map (fun it => it.url) ∨
      (translateLoop original backend fuel i acc em d).1.map (fun it => it.url)
          = original.map (fun it => it.url) := by
  intro fuel
  induction fuel with
  | zero =>
    intro i acc em d hfuel
    have hstop : original.drop i = [] :=
      List.drop_eq_nil_of_le (by simpa using hfuel)
    left
    rw [translateLoop_stop _ _ _ _ _ _ _ (by omega)]
    simp [hstop]
  | succ fuel ih =>
    intro i acc em d hfuel
    by_cases hi : i < original.length
    · cases hb : backend i with
      | exn =>
        right
        rw [translateLoop_succ_exn _ _ _ _ _ _ _ hi hb]
      | ok items =>
        rw [translateLoop_succ_ok _ _ _ _ _ _ _ _ hi hb]
        have hrec := ih (i + batchSize)
          (acc ++ items.getD ((original.drop i).take batchSize))
          (em ++ [min 100 (jsRound ((i + batchSize) * 100) original.length)])
          (d + 1) (by simp [batchSize] at hfuel ⊢; omega)
        rcases hrec with h | h
        · left
          rw [h]
          have hbatch : (items.getD ((original.drop i).take batchSize)).map (fun it => it.url)
              = ((original.drop i).take batchSize).map (fun it => it.url) := by
            cases items with
            | none => rfl
            | some ys => exact hurl i ys hb
          rw [List.map_append, hbatch, List.append_assoc]
          congr 1
          rw [← List.map_append, ← drop_split]
        · right
          exact h
    · left
      have hstop : original.drop i = [] := List.drop_eq_nil_of_le (by omega)
      rw [translateLoop_stop _ _ _ _ _ _ _ hi]
      simp [hstop]

/-- Claim C1: provided each successful batch response carries over the
urls of the batch it answers (the backend contract for
`TranslatedFeedItem`), a completed `translateNews` run — whether its
batches succeeded, fell back, or a request threw — produces a display
snapshot of the same length as the original with the same urls in the
same order. -/
theorem translate_preserves_order (s : AppState) (backend : Nat → TranslateResp)
    (hurl : ∀ i ys, backend i = .ok (some ys) →
      ys.map (fun it => it.url)
        = ((s.originalNewsData.drop i).take batchSize).map (fun it => it.url)) :
    (translateNews s backend).1.newsData.length = s.originalNewsData.length ∧
    (translateNews s backend).1.newsData.map (fun it => it.url)
      = s.originalNewsData.map (fun it => it.url) := by
  have h := translateLoop_urls s.originalNewsData backend hurl
    s.originalNewsData.length 0 [] [] 0 (by simp [batchSize]; omega)
  have hmap : (translateNews s backend).1.newsData.map (fun it => it.url)
      = s.originalNewsData.map (fun it => it.url) := by
    rcases h with h | h
    · simpa using h
    · exact h
  refine ⟨?_, hmap⟩
  have hlen := congrArg List.length hmap
  simpa using hlen

/-- Witness for `translate_preserves_order`: a concrete run in which the
single request throws. -/
theorem translate_preserves_order_witness :
    (translateNews exState (fun _ => .exn)).1.newsData.map (fun it => it.url)
      = exState.originalNewsData.map (fun it => it.url) :=
  (translate_preserves_order exState (fun _ => .exn)
    (fun i ys h => by simp at h)).2

/-- `Option.getD` on a batch response agrees with `respItems`. -/
lemma getD_eq_respItems (items : Option (List NewsItem)) (batch : List NewsItem) :
    items.getD batch = respItems batch (.ok items) := by
  cases items <;> rfl

/-- Under the no-throw hypothesis the loop result is its three
accumulators extended with the contribution of the run from the current
position. -/
lemma translateLoop_eq_runFrom (original : List NewsItem)
    (backend : Nat → TranslateResp) (hex : ∀ i, backend i ≠ .exn) :
    ∀ fuel i acc em d,
      translateLoop original backend fuel i acc em d =
        (acc ++ (runFrom original backend fuel i).1,
         em ++ (runFrom original backend fuel i).2.1,
         d + (runFrom original backend fuel i).2.2) := by
  intro fuel
  induction fuel with
  | zero => intro i acc em d; simp [translateLoop, runFrom]
  | succ fuel ih =>
    intro i acc em d
    by_cases hi : i < original.length
    · cases hb : backend i with
      | exn => exact absurd hb (hex i)
      | ok items =>
        rw [translateLoop_succ_ok _ _ _ _ _ _ _ _ hi hb,
            runFrom_succ_of_lt _ _ _ _ hi, ih, hb, ← getD_eq_respItems]
        simp [List.append_assoc]
        omega
    · rw [translateLoop_stop _ _ _ _ _ _ _ hi,
          runFrom_stop _ _ _ _ (by omega)]
      simp

/-- The length of each batch slice. -/
lemma batch_length (original : List NewsItem) (i : Nat) :
    ((original.drop i).take batchSize).length
      = min batchSize (original.length - i) := by
  simp

/-- Under the backend length contract, each batch contributes exactly as
many items as the batch slice it answers. -/
lemma respItems_length (original : List NewsItem) (backend : Nat → TranslateResp)
    (hlen : ∀ i ys, backend i = .ok (some ys) →
      ys.length = ((original.drop i).take batchSize).length) (i : Nat) :
    (respItems ((original.drop i).take batchSize) (backend i)).length
      = ((original.drop i).take batchSize).length := by
  cases hb : backend i with
  | exn => rfl
  | ok items =>
    cases items with
    | none => rfl
    | some ys => exact hlen i ys hb

/-- Under the backend length contract, the run from position `i` yields
exactly the remaining `original.length - i` items. -/
lemma runFrom_result_length (original : List NewsItem)
    (backend : Nat → TranslateResp)
    (hlen : ∀ i ys, backend i = .ok (some ys) →
      ys.length = ((original.drop i).take batchSize).length) :
    ∀ fuel i, original.length ≤ i + batchSize * fuel →
      (runFrom original backend fuel i).1.length = original.length - i := by
  intro fuel
  induction fuel with
  | zero =>
    intro i h
    simp [batchSize] at h
    rw [runFrom_stop _ _ _ _ (by omega)]
    simp
    omega
  | succ fuel ih =>
    intro i hfuel
    by_cases hi : i < original.length
    · have hrec := ih (i + batchSize) (by simp [batchSize] at hfuel ⊢; omega)
      rw [runFrom_succ_of_lt _ _ _ _ hi]
      simp only [List.length_append, respItems_length original backend hlen i,
        batch_length, hrec]
      simp [batchSize] at *
      omega
    · rw [runFrom_stop _ _ _ _ (by omega)]
      simp
      omega

/-- The run from position `i` emits one progress value and dispatches one
request per remaining batch. -/
lemma runFrom_counts (original : List NewsItem) (backend : Nat → TranslateResp) :
    ∀ fuel i, original.length ≤ i + batchSize * fuel →
      (runFrom original backend fuel i).2.1.length
          = (original.length - i + 9) / 10 ∧
      (runFrom original backend fuel i).2.2
          = (original.length - i + 9) / 10 := by
  intro fuel
  induction fuel with
  | zero =>
    intro i h
    simp [batchSize] at h
    rw [runFrom_stop _ _ _ _ (by omega)]
    constructor <;> simp <;> omega
  | succ fuel ih =>
    intro i hfuel
    by_cases hi : i < original.length
    · obtain ⟨h1, h2⟩ := ih (i + batchSize) (by simp [batchSize] at hfuel ⊢; omega)
      rw [runFrom_succ_of_lt _ _ _ _ hi]
      simp only [List.length_cons, h1, h2]
      simp [batchSize] at *
      omega
    · rw [runFrom_stop _ _ _ _ (by omega)]
      constructor <;> simp <;> omega

/-- The progress value emitted for the `k`-th batch counted from loop
position `i`. -/
lemma runFrom_emit_getElem (original : List NewsItem) (backend : Nat → TranslateResp) :
    ∀ fuel i k, k < (runFrom original backend fuel i).2.1.length →
      (runFrom original backend fuel i).2.1[k]?
        = some (min 100 (jsRound ((i + batchSize * k + batchSize) * 100)
            original.length)) := by
  intro fuel
  induction fuel with
  | zero =>
    intro i k h
    simp [runFrom] at h
  | succ fuel ih =>
    intro i k h
    by_cases hi : i < original.length
    · have he : (runFrom original backend (fuel + 1) i).2.1
          = min 100 (jsRound ((i + batchSize) * 100) original.length)
            :: (runFrom original backend fuel (i + batchSize)).2.1 := by
        rw [runFrom_succ_of_lt _ _ _ _ hi]
      rw [he] at h ⊢
      cases k with
      | zero => simp [batchSize]
      | succ k =>
        rw [List.getElem?_cons_succ]
        rw [ih (i + batchSize) k (by simpa using h)]
        have harg : i + batchSize + batchSize * k + batchSize
            = i + batchSize * (k + 1) + batchSize := by ring
        rw [harg]
    · rw [runFrom_stop _ _ _ _ (by omega)] at h
      simp at h

/-- Read an indexed list equation back through `List.get`. -/
lemma get_eq_of_getElem_eq {l : List Nat} {k v : Nat} (h : k < l.length)
    (hq : l[k]? = some v) : l.get ⟨k, h⟩ = v := by
  rw [List.getElem?_eq_getElem h] at hq
  rw [List.get_eq_getElem]
  exact Option.some.inj hq

/-- `Math.round (a / len)` is at least 100 once `a` reaches `100 * len`. -/
lemma jsRound_ge_100 (a len : Nat) (hlen : 0 < len) (ha : 100 * len ≤ a) :
    100 ≤ jsRound a len := by
  unfold jsRound
  rw [Nat.le_div_iff_mul_le (by omega)]
  omega

/-- The progress value the loop computes for the batch starting at
`batchSize * k` coincides with the specified
`min 100 (round (processed / total * 100))`, where `processed` counts the
items of the complete batches so far (`min ((k+1) * batchSize) len`). -/
lemma progress_formula (len k : Nat) (hlen : 0 < len) :
    min 100 (jsRound ((batchSize * k + batchSize) * 100) len)
      = min 100 (jsRound (min ((k + 1) * batchSize) len * 100) len) := by
  simp only [batchSize]
  by_cases hk : (k + 1) * 10 ≤ len
  · rw [min_eq_left hk]
    have harg : 10 * k + 10 = (k + 1) * 10 := by ring
    rw [harg]
  · push_neg at hk
    have hminr : min ((k + 1) * 10) len = len := min_eq_right (by omega)
    have h1 : 100 ≤ jsRound ((10 * k + 10) * 100) len :=
      jsRound_ge_100 ((10 * k + 10) * 100) len hlen (by omega)
    have h2 : 100 ≤ jsRound (len * 100) len :=
      jsRound_ge_100 (len * 100) len hlen (by omega)
    rw [hminr, min_eq_left h1, min_eq_left h2]

/-- Later batches report at least as much progress. -/
lemma progress_mono (len a b : Nat) (h : a ≤ b) :
    min 100 (jsRound (a * 100) len) ≤ min 100 (jsRound (b * 100) len) := by
  refine min_le_min (le_refl 100) ?_
  unfold jsRound
  exact Nat.div_le_div_right (by omega)

/-- The emitted progress sequence of a no-throw `translateNews` run equals
that of `runFrom` from position `0`. -/
lemma translateNews_emit_eq_runFrom (s : AppState) (backend : Nat → TranslateResp)
    (hex : ∀ i, backend i ≠ .exn) :
    (translateNews s backend).2.1
      = (runFrom s.originalNewsData backend s.originalNewsData.length 0).2.1 := by
  show (translateLoop s.originalNewsData backend s.originalNewsData.length 0 [] [] 0).2.1 = _
  rw [translateLoop_eq_runFrom s.originalNewsData backend hex]
  simp

/-- Claim C4, amended: over a non-empty snapshot, provided every batch
request returns a parsed response (success, or failure by a body without
items — no thrown request), the progress value emitted after the `k`-th
batch equals `min 100 (round (itemsProcessedSoFar / totalItems * 100))`
with `itemsProcessedSoFar = min ((k+1) * batchSize) totalItems`, the
emitted sequence is non-decreasing, and the final emitted value is 100.
When a request throws, the loop aborts instead and emission stops short
(see the separate counterexample). -/
theorem translate_progress (s : AppState) (backend : Nat → TranslateResp)
    (hne : s.originalNewsData ≠ []) (hex : ∀ i, backend i ≠ .exn) :
    (∀ k (h : k < (translateNews s backend).2.1.length),
      (translateNews s backend).2.1.get ⟨k, h⟩
        = min 100 (jsRound (min ((k + 1) * batchSize) s.originalNewsData.length
            * 100) s.originalNewsData.length)) ∧
    List.Chain' (· ≤ ·) (translateNews s backend).2.1 ∧
    (translateNews s backend).2.1.getLast? = some 100 := by
  have hlen0 : 0 < s.originalNewsData.length := List.length_pos.mpr hne
  have hE := translateNews_emit_eq_runFrom s backend hex
  have hfuel : s.originalNewsData.length
      ≤ 0 + batchSize * s.originalNewsData.length := by
    simp [batchSize]; omega
  have hElen : (translateNews s backend).2.1.length
      = (s.originalNewsData.length + 9) / 10 := by
    rw [hE]
    have := (runFrom_counts s.originalNewsData backend
      s.originalNewsData.length 0 hfuel).1
    simpa using this
  have hget : ∀ k, k < (translateNews s backend).2.1.length →
      (translateNews s backend).2.1[k]?
        = some (min 100 (jsRound ((batchSize * k + batchSize) * 100)
            s.originalNewsData.length)) := by
    intro k hk
    rw [hE] at hk ⊢
    have := runFrom_emit_getElem s.originalNewsData backend
      s.originalNewsData.length 0 k hk
    simpa using this
  refine ⟨?_, ?_, ?_⟩
  · intro k h
    rw [get_eq_of_getElem_eq h (hget k h)]
    exact progress_formula s.originalNewsData.length k hlen0
  · rw [List.chain'_iff_get]
    intro k hk
    rw [get_eq_of_getElem_eq (by omega) (hget k (by omega)),
        get_eq_of_getElem_eq (by omega) (hget (k + 1) (by omega))]
    have ha : batchSize * k + batchSize ≤ batchSize * (k + 1) + batchSize := by
      simp only [batchSize]
      omega
    exact progress_mono s.originalNewsData.length _ _ ha
  · have hpos : 0 < (translateNews s backend).2.1.length := by
      rw [hElen]; omega
    rw [List.getLast?_eq_getElem?]
    rw [hget ((translateNews s backend).2.1.length - 1) (by omega)]
    have hnb : s.originalNewsData.length
        ≤ batchSize * ((translateNews s backend).2.1.length - 1) + batchSize := by
      rw [hElen]
      simp [batchSize]
      omega
    have h100 : min 100 (jsRound ((batchSize * ((translateNews s backend).2.1.length - 1)
        + batchSize) * 100) s.originalNewsData.length) = 100 :=
      min_eq_left (jsRound_ge_100 _ _ hlen0 (by simp [batchSize] at hnb ⊢; omega))
    rw [h100]

/-- Witness for `translate_progress`: a five-item snapshot whose single
batch fails with an itemless body still ends progress at 100. -/
theorem translate_progress_witness :
    fiveState.originalNewsData ≠ [] ∧
    (translateNews fiveState (fun _ => .ok none)).2.1.getLast? = some 100 :=
  ⟨by decide,
   (translate_progress fiveState (fun _ => .ok none) (by decide)
     (fun i => by simp)).2.2⟩

/-- Counterexample to claim C4 as stated: on an eleven-item snapshot
(two batches) where the first batch succeeds with an itemless body and
the request for the second batch throws, the run completes (the `catch`
resets the display) having emitted only the first batch's progress value
91 — no value is emitted after the second batch, and the final emitted
value is 91, not 100. -/
theorem translate_progress_cex :
    numBatches elevenState.originalNewsData.length = 2 ∧
    (translateNews elevenState
        (fun i => if i = 0 then .ok none else .exn)).2.1 = [91] ∧
    (translateNews elevenState
        (fun i => if i = 0 then .ok none else .exn)).2.1.getLast? ≠ some 100 := by
  refine ⟨by decide, by decide, by decide⟩

/-- `numBatches` written out. -/
lemma numBatches_eq (n : Nat) : numBatches n = (n + 9) / 10 := by
  simp [numBatches, batchSize]

/-- Dropping one batch of the run, under the backend length contract. -/
lemma runFrom_result_drop_one (original : List NewsItem)
    (backend : Nat → TranslateResp)
    (hlen : ∀ i ys, backend i = .ok (some ys) →
      ys.length = ((original.drop i).take batchSize).length)
    (fuel i : Nat) (hfuel : original.length ≤ i + batchSize * fuel) :
    (runFrom original backend fuel i).1.drop batchSize
      = (runFrom original backend (fuel - 1) (i + batchSize)).1 := by
  cases fuel with
  | zero =>
    rw [runFrom_stop _ _ _ _ (by simp only [batchSize] at hfuel; omega),
        runFrom_stop _ _ _ _ (by simp only [batchSize] at hfuel; omega)]
    rfl
  | succ fuel =>
    by_cases hi : i < original.length
    · rw [runFrom_succ_of_lt _ _ _ _ hi]
      rw [show fuel + 1 - 1 = fuel from rfl]
      have htr : (respItems ((original.drop i).take batchSize) (backend i)).length
          = min batchSize (original.length - i) := by
        rw [respItems_length original backend hlen i, batch_length]
      by_cases hfull : batchSize ≤ original.length - i
      · have htr10 : (respItems ((original.drop i).take batchSize) (backend i)).length
            = batchSize := by rw [htr]; exact min_eq_left hfull
        show (respItems ((original.drop i).take batchSize) (backend i)
            ++ (runFrom original backend fuel (i + batchSize)).1).drop batchSize
          = (runFrom original backend fuel (i + batchSize)).1
        exact List.drop_left' htr10
      · push_neg at hfull
        have hstop : runFrom original backend fuel (i + batchSize) = ([], [], 0) :=
          runFrom_stop _ _ _ _ (by simp only [batchSize] at hfull ⊢; omega)
        show (respItems ((original.drop i).take batchSize) (backend i)
            ++ (runFrom original backend fuel (i + batchSize)).1).drop batchSize
          = (runFrom original backend fuel (i + batchSize)).1
        rw [hstop]
        show (respItems ((original.drop i).take batchSize) (backend i)
            ++ ([] : List NewsItem)).drop batchSize = ([] : List NewsItem)
        rw [List.append_nil]
        refine List.drop_eq_nil_of_le ?_
        rw [htr]
        exact min_le_left _ _
    · rw [runFrom_stop _ _ _ _ (by omega), runFrom_stop _ _ _ _ (by omega)]
      rfl

/-- Dropping `k` batches of the run, under the backend length contract. -/
lemma runFrom_result_drop (original : List NewsItem)
    (backend : Nat → TranslateResp)
    (hlen : ∀ i ys, backend i = .ok (some ys) →
      ys.length = ((original.drop i).take batchSize).length) :
    ∀ k fuel i, original.length ≤ i + batchSize * fuel →
      (runFrom original backend fuel i).1.drop (batchSize * k)
        = (runFrom original backend (fuel - k) (i + batchSize * k)).1 := by
  intro k
  induction k with
  | zero => intro fuel i h; simp
  | succ k ih =>
    intro fuel i hfuel
    have hsplit : (runFrom original backend fuel i).1.drop (batchSize * (k + 1))
        = ((runFrom original backend fuel i).1.drop (batchSize * k)).drop batchSize := by
      rw [List.drop_drop]
      congr 1
    rw [hsplit, ih fuel i hfuel]
    rw [runFrom_result_drop_one original backend hlen (fuel - k) (i + batchSize * k)
      (by simp only [batchSize] at hfuel ⊢; omega)]
    rw [show fuel - k - 1 = fuel - (k + 1) from by omega,
        show i + batchSize * k + batchSize = i + batchSize * (k + 1) from by
          simp only [batchSize]; ring]

/-- The `k`-th batch slot of a completed no-throw run holds exactly what
that batch's response contributed: the returned items on success, the
original batch items on an itemless response. -/
lemma runFrom_segment (original : List NewsItem) (backend : Nat → TranslateResp)
    (hlen : ∀ i ys, backend i = .ok (some ys) →
      ys.length = ((original.drop i).take batchSize).length)
    (k : Nat) (hk : batchSize * k < original.length) :
    ((runFrom original backend original.length 0).1.drop (batchSize * k)).take batchSize
      = respItems ((original.drop (batchSize * k)).take batchSize)
          (backend (batchSize * k)) := by
  have hfuel : original.length ≤ 0 + batchSize * original.length := by
    simp only [batchSize]; omega
  rw [runFrom_result_drop original backend hlen k original.length 0 hfuel]
  rw [show (0 : Nat) + batchSize * k = batchSize * k from by omega]
  obtain ⟨m, hm⟩ : ∃ m, original.length - k = m + 1 := by
    refine ⟨original.length - k - 1, ?_⟩
    have : k < original.length := by simp only [batchSize] at hk; omega
    omega
  rw [hm, runFrom_succ_of_lt _ _ _ _ hk]
  by_cases hfull : batchSize ≤ original.length - batchSize * k
  · have htr : (respItems ((original.drop (batchSize * k)).take batchSize)
        (backend (batchSize * k))).length = batchSize := by
      rw [respItems_length original backend hlen, batch_length]
      exact min_eq_left hfull
    show (respItems ((original.drop (batchSize * k)).take batchSize)
        (backend (batchSize * k))
        ++ (runFrom original backend m (batchSize * k + batchSize)).1).take batchSize
      = respItems ((original.drop (batchSize * k)).take batchSize)
          (backend (batchSize * k))
    exact List.take_left' htr
  · push_neg at hfull
    have hstop : runFrom original backend m (batchSize * k + batchSize) = ([], [], 0) :=
      runFrom_stop _ _ _ _ (by omega)
    show (respItems ((original.drop (batchSize * k)).take batchSize)
        (backend (batchSize * k))
        ++ (runFrom original backend m (batchSize * k + batchSize)).1).take batchSize
      = respItems ((original.drop (batchSize * k)).take batchSize)
          (backend (batchSize * k))
    rw [hstop]
    show (respItems ((original.drop (batchSize * k)).take batchSize)
        (backend (batchSize * k)) ++ ([] : List NewsItem)).take batchSize
      = respItems ((original.drop (batchSize * k)).take batchSize)
          (backend (batchSize * k))
    rw [List.append_nil]
    refine List.take_of_length_le ?_
    rw [respItems_length original backend hlen, batch_length]
    exact min_le_left _ _

/-- If the first thrown request is the one for batch `k` (and that batch
exists), the loop aborts there: the result is the intact original
snapshot and exactly `k + 1` requests were dispatched. -/
lemma translateLoop_exn_stop (original : List NewsItem)
    (backend : Nat → TranslateResp) :
    ∀ k fuel i acc em d,
      original.length ≤ i + batchSize * fuel →
      backend (i + batchSize * k) = .exn →
      (∀ j, j < k → backend (i + batchSize * j) ≠ .exn) →
      i + batchSize * k < original.length →
      (translateLoop original backend fuel i acc em d).1 = original ∧
      (translateLoop original backend fuel i acc em d).2.2 = d + k + 1 := by
  intro k
  induction k with
  | zero =>
    intro fuel i acc em d hfuel hb hprev hk
    have hi : i < original.length := by simp only [batchSize] at hk; omega
    have hb' : backend i = .exn := by simpa using hb
    cases fuel with
    | zero =>
      exfalso
      simp only [batchSize] at hfuel
      omega
    | succ fuel =>
      rw [translateLoop_succ_exn _ _ _ _ _ _ _ hi hb']
      refine ⟨rfl, ?_⟩
      show d + 1 = d + 0 + 1
      omega
  | succ k ih =>
    intro fuel i acc em d hfuel hb hprev hk
    have hi : i < original.length := by simp only [batchSize] at hk; omega
    cases fuel with
    | zero =>
      exfalso
      simp only [batchSize] at hfuel
      omega
    | succ fuel =>
      have harg : ∀ j : Nat, (i + batchSize) + batchSize * j
          = i + batchSize * (j + 1) := by
        intro j; simp only [batchSize]; ring
      cases hbc : backend i with
      | exn =>
        exact absurd hbc (by simpa using hprev 0 (by omega))
      | ok items =>
        rw [translateLoop_succ_ok _ _ _ _ _ _ _ _ hi hbc]
        have hres := ih fuel (i + batchSize)
          (acc ++ items.getD ((original.drop i).take batchSize))
          (em ++ [min 100 (jsRound ((i + batchSize) * 100) original.length)])
          (d + 1)
          (by simp only [batchSize] at hfuel ⊢; omega)
          (by rw [harg k]; exact hb)
          (by intro j hj; rw [harg j]; exact hprev (j + 1) (by omega))
          (by rw [harg k]; exact hk)
        exact ⟨hres.1, by rw [hres.2]; omega⟩

/-- Claim C2, amended.  For a batch `k` that exists in the snapshot, the
two failure modes of the code behave differently.  First part: when every
request returns a parsed response (an HTTP error body without items being
the handled per-batch failure), all batches are dispatched, the length
invariant holds, the operation surfaces no error, and the `k`-th batch
slot of the result holds the original batch items when its response had
no items and the returned translation when it did.  Second part: when the
request for batch `k` is the first to throw (network failure), the loop
aborts — only `k + 1` requests are dispatched and the entire display is
reset to the original snapshot (still surfacing no error). -/
theorem translate_partial_failure (s : AppState) (backend : Nat → TranslateResp)
    (k : Nat) (hk : batchSize * k < s.originalNewsData.length) :
    ((∀ i, backend i ≠ .exn) →
     (∀ i ys, backend i = .ok (some ys) →
        ys.length = ((s.originalNewsData.drop i).take batchSize).length) →
      (translateNews s backend).2.2 = numBatches s.originalNewsData.length ∧
      (translateNews s backend).1.newsData.length = s.originalNewsData.length ∧
      (translateNews s backend).1.grid ≠ .errorMsg ∧
      (backend (batchSize * k) = .ok none →
        ((translateNews s backend).1.newsData.drop (batchSize * k)).take batchSize
          = (s.originalNewsData.drop (batchSize * k)).take batchSize) ∧
      (∀ ys, backend (batchSize * k) = .ok (some ys) →
        ((translateNews s backend).1.newsData.drop (batchSize * k)).take batchSize
          = ys)) ∧
    (backend (batchSize * k) = .exn →
     (∀ j, j < k → backend (batchSize * j) ≠ .exn) →
      (translateNews s backend).1.newsData = s.originalNewsData ∧
      (translateNews s backend).2.2 = k + 1 ∧
      (translateNews s backend).1.grid ≠ .errorMsg) := by
  constructor
  · intro hex hlen
    have hres : (translateNews s backend).1.newsData
        = (runFrom s.originalNewsData backend s.originalNewsData.length 0).1 := by
      show (translateLoop s.originalNewsData backend
        s.originalNewsData.length 0 [] [] 0).1 = _
      rw [translateLoop_eq_runFrom s.originalNewsData backend hex]
      simp
    have hd : (translateNews s backend).2.2
        = (runFrom s.originalNewsData backend s.originalNewsData.length 0).2.2 := by
      show (translateLoop s.originalNewsData backend
        s.originalNewsData.length 0 [] [] 0).2.2 = _
      rw [translateLoop_eq_runFrom s.originalNewsData backend hex]
      simp
    have hfuel : s.originalNewsData.length
        ≤ 0 + batchSize * s.originalNewsData.length := by
      simp only [batchSize]; omega
    refine ⟨?_, ?_, ?_, ?_, ?_⟩
    · rw [hd, (runFrom_counts _ _ _ _ hfuel).2, numBatches_eq]
      simp
    · rw [hres, runFrom_result_length _ _ hlen _ _ hfuel]
      simp
    · rw [translateNews_grid]
      exact renderGrid_ne_errorMsg _ _
    · intro hb
      rw [hres, runFrom_segment _ _ hlen k hk, hb]
      rfl
    · intro ys hb
      rw [hres, runFrom_segment _ _ hlen k hk, hb]
      rfl
  · intro hbk hprev
    have hB := translateLoop_exn_stop s.originalNewsData backend k
      s.originalNewsData.length 0 [] [] 0
      (by simp only [batchSize]; omega)
      (by simpa using hbk)
      (by intro j hj; simpa using hprev j hj)
      (by simpa using hk)
    refine ⟨hB.1, ?_, ?_⟩
    · show (translateLoop s.originalNewsData backend
        s.originalNewsData.length 0 [] [] 0).2.2 = k + 1
      rw [hB.2]
      omega
    · rw [translateNews_grid]
      exact renderGrid_ne_errorMsg _ _

/-- Witness for `translate_partial_failure` on the eleven-item feed with
`cex2Backend`: batch 0 (itemless response) falls back to the originals in
place, batch 1 is translated in place, and both batches were
dispatched. -/
theorem translate_partial_failure_witness :
    ((translateNews elevenState cex2Backend).1.newsData.drop 0).take batchSize
        = (elevenState.originalNewsData.drop 0).take batchSize ∧
    ((translateNews elevenState cex2Backend).1.newsData.drop
        (batchSize * 1)).take batchSize = [exItemRu] ∧
    (translateNews elevenState cex2Backend).2.2
        = numBatches elevenState.originalNewsData.length := by
  have hex : ∀ i, cex2Backend i ≠ .exn := by
    intro i
    by_cases h0 : i = 0 <;> simp [cex2Backend, h0]
  have hlen : ∀ i ys, cex2Backend i = .ok (some ys) →
      ys.length = ((elevenState.originalNewsData.drop i).take batchSize).length := by
    intro i ys hy
    by_cases h0 : i = 0
    · simp [cex2Backend, h0] at hy
    · simp [cex2Backend, h0] at hy
      rw [← hy]
      simp [elevenState]
  have h0 := translate_partial_failure elevenState cex2Backend 0 (by decide)
  have h1 := translate_partial_failure elevenState cex2Backend 1 (by decide)
  refine ⟨(h0.1 hex hlen).2.2.2.1 (by decide), ?_, (h0.1 hex hlen).1⟩
  exact (h1.1 hex hlen).2.2.2.2 [exItemRu] (by decide)

/-- Counterexample to claim C2 as stated: on an eleven-item snapshot
(two batches), when the request for batch 0 throws while the request for
batch 1 would succeed with a translation, the run neither dispatches nor
translates batch 1 — only one request is made and the result is the full
original snapshot, contradicting the claim that the remaining batches are
still dispatched and translated. -/
theorem translate_batch_abort_cex :
    ((fun i => if i = 0 then TranslateResp.exn else .ok (some [exItemRu])) 10
        = .ok (some [exItemRu])) ∧
    (translateNews elevenState
        (fun i => if i = 0 then .exn else .ok (some [exItemRu]))).1.newsData
      = elevenItems ∧
    (translateNews elevenState
        (fun i => if i = 0 then .exn else .ok (some [exItemRu]))).2.2 = 1 ∧
    numBatches elevenState.originalNewsData.length = 2 ∧
    ((translateNews elevenState
        (fun i => if i = 0 then .exn else .ok (some [exItemRu]))).1.newsData.drop
          10).take 10 = [exItem] ∧
    exItem ≠ exItemRu := by
  refine ⟨by decide, by decide, by decide, by decide, by decide, by decide⟩
